import Mathlib

/-!
Verification of the alttext-mcp API client and formatters.

This file gives a shallow embedding of the repository's HTTP-client helpers
(`handleResponse`, `parsePagination`, `connectionError`, the request retry
loop, request-body construction) and of the display formatters
(`formatAccount`, `formatImage`, `formatScrapeResult`), for both the
TypeScript client (src/alttext-api.ts, formatters) and the Ruby client
revisions (lib/alttext_api.rb and the standalone Ruby client with the
persistent-connection retry loop), and proves properties of them.

Conventions:
- JSON values are modelled by the inductive `Json`; JavaScript objects and
  Ruby hashes are association lists in insertion order.
- A parsed response body is `Option Json`: `none` models a body that is not
  valid JSON (`response.json()` throwing / `JSON.parse` raising).
- HTTP attempt outcomes (a served response vs. the various transport
  exception classes) are the inductive `AttemptOutcome`; a client's request
  logic is a function of the scripted outcome(s) of its network attempts.
-/

namespace AltText

/-- JSON values. Objects and arrays keep insertion order, mirroring
JavaScript objects and Ruby hashes. Numbers are modelled as integers
(all numeric values handled by the claims are integral). -/
inductive Json where
  | null
  | bool (b : Bool)
  | num (n : Int)
  | str (s : String)
  | arr (elems : List Json)
  | obj (fields : List (String × Json))

/-- JavaScript property access `value[key]`: a lookup on objects (first
matching key), `undefined` (`none`) on everything else. -/
def Json.get : Json → String → Option Json
  | .obj fields, key => fields.lookup key
  | _, _ => none

/-- `value[key] ?? null`-style access: JavaScript `??` lets `null` and
`undefined` fall through, so both are collapsed to `none`. -/
def Json.getNonNull (j : Json) (key : String) : Option Json :=
  match j.get key with
  | some .null => none
  | some v => some v
  | none => none

/-- Ruby `hash[key]` filtered through Ruby truthiness (`x || y` falls
through exactly on `nil` and `false`). -/
def Json.getTruthy (j : Json) (key : String) : Option Json :=
  match j.get key with
  | some .null => none
  | some (.bool false) => none
  | some v => some v
  | none => none

mutual

/-- JavaScript `String(v)` / template-literal coercion of a JSON value. -/
def jsToString : Json → String
  | .null => "null"
  | .bool true => "true"
  | .bool false => "false"
  | .num n => toString n
  | .str s => s
  | .arr elems => String.intercalate "," (jsToStringList elems)
  | .obj _ => "[object Object]"

def jsToStringList : List Json → List String
  | [] => []
  | x :: xs => jsToString x :: jsToStringList xs

end

mutual

/-- Ruby `to_s` of a parsed-JSON value (`nil.to_s` is `""`). Containers
render in Ruby `inspect` style. -/
def rubyToS : Json → String
  | .null => ""
  | .bool true => "true"
  | .bool false => "false"
  | .num n => toString n
  | .str s => s
  | .arr elems => "[" ++ String.intercalate ", " (rubyInspectList elems) ++ "]"
  | .obj fields => "\x7b" ++ String.intercalate ", " (rubyInspectFields fields) ++ "\x7d"

def rubyInspect : Json → String
  | .null => "nil"
  | .bool true => "true"
  | .bool false => "false"
  | .num n => toString n
  | .str s => "\"" ++ s ++ "\""
  | .arr elems => "[" ++ String.intercalate ", " (rubyInspectList elems) ++ "]"
  | .obj fields => "\x7b" ++ String.intercalate ", " (rubyInspectFields fields) ++ "\x7d"

def rubyInspectList : List Json → List String
  | [] => []
  | x :: xs => rubyInspect x :: rubyInspectList xs

def rubyInspectFields : List (String × Json) → List String
  | [] => []
  | (k, v) :: rest => ("\"" ++ k ++ "\"=>" ++ rubyInspect v) :: rubyInspectFields rest

end

mutual

/-- Ruby `Array#flatten` of one element: arrays are flattened recursively,
everything else is kept. -/
def rubyFlattenOne : Json → List Json
  | .arr xs => rubyFlattenList xs
  | v => [v]

/-- Ruby `Array#flatten` over a list of values. -/
def rubyFlattenList : List Json → List Json
  | [] => []
  | x :: xs => rubyFlattenOne x ++ rubyFlattenList xs

end

/-- One character of `JSON.stringify` string escaping. -/
def escapeJsonChar (c : Char) : String :=
  if c = '"' then "\\\""
  else if c = '\\' then "\\\\"
  else if c = '\n' then "\\n"
  else if c = '\r' then "\\r"
  else if c = '\t' then "\\t"
  else String.singleton c

mutual

/-- `JSON.stringify` (compact form, insertion-order keys), producing the
wire format of a request body. -/
def Json.serialize : Json → String
  | .null => "null"
  | .bool true => "true"
  | .bool false => "false"
  | .num n => toString n
  | .str s => "\"" ++ String.join (s.data.map escapeJsonChar) ++ "\""
  | .arr elems => "[" ++ Json.serializeList elems ++ "]"
  | .obj fields => "\x7b" ++ Json.serializeFields fields ++ "\x7d"

def Json.serializeList : List Json → String
  | [] => ""
  | [x] => Json.serialize x
  | x :: xs => Json.serialize x ++ "," ++ Json.serializeList xs

def Json.serializeFields : List (String × Json) → String
  | [] => ""
  | [(k, v)] => "\"" ++ k ++ "\":" ++ Json.serialize v
  | (k, v) :: rest => "\"" ++ k ++ "\":" ++ Json.serialize v ++ "," ++ Json.serializeFields rest

end

/-- Substring test on character lists (used to state wire-format facts). -/
def hasSub (needle hay : List Char) : Bool :=
  hay.tails.any fun t => needle.isPrefixOf t

-- ## The TypeScript client's classified error and response handling
-- (src/alttext-api.ts)

/-- `AltTextApiError` of the TypeScript client: status, optional machine
error code (kept as the raw JSON value the cast would keep), the
field-validation error map, and the display message. -/
structure ApiError where
  status : Nat
  errorCode : Option Json
  errors : List (String × List String)
  message : String

/-- `value.every(v => typeof v === "string")` together with the collection
of the strings: `some` exactly when every element is a string. -/
def asStringList : List Json → Option (List String)
  | [] => some []
  | .str s :: rest => (asStringList rest).map (s :: ·)
  | _ => none

/-- The filtering loop of `handleResponse`: keep exactly the entries of the
body's `errors` object whose value is an array of strings; anything that is
not a plain object contributes nothing. -/
def filterErrors : Option Json → List (String × List String)
  | some (.obj fields) =>
    fields.filterMap fun kv =>
      match kv with
      | (k, .arr xs) => (asStringList xs).map fun vs => (k, vs)
      | _ => none
  | _ => []

/-- `Response.ok`: status in the inclusive range 200–299. -/
def statusOk (status : Nat) : Bool := 200 ≤ status && status ≤ 299

/-- The literal `HTTP <status>` fallback message. -/
def httpFallback (status : Nat) : String := "HTTP " ++ toString status

/-- `handleResponse` of src/alttext-api.ts: parse the body (an unparsable
body becomes `{}`), return it on a 2xx status, otherwise build the
classified error: filtered field-error map, and message by priority
top-level `error` value / joined retained validation messages /
`HTTP <status>`. -/
def handleResponse (status : Nat) (rawBody : Option Json) : Except ApiError Json :=
  let body := rawBody.getD (.obj [])
  if statusOk status then .ok body
  else
    let errors := filterErrors (body.get "errors")
    let errorValues := (errors.map Prod.snd).flatten
    let message :=
      match body.getNonNull "error" with
      | some v => jsToString v
      | none =>
        if errorValues.isEmpty then httpFallback status
        else String.intercalate ", " errorValues
    .error
      { status := status
        errorCode := body.getNonNull "error_code"
        errors := errors
        message := message }

-- ## Pagination parsing

/-- Pagination record of the TypeScript client. -/
structure Pagination where
  currentPage : Int
  pageItems : Int
  totalPages : Int
  totalCount : Int

/-- JavaScript whitespace skipped by `parseInt`. -/
def isJsWhitespace (c : Char) : Bool :=
  c = ' ' || c = '\t' || c = '\n' || c = '\r' || c = '\x0b' || c = '\x0c'

/-- Decimal digits to a natural number. -/
def digitsToNat (ds : List Char) : Nat :=
  ds.foldl (fun acc c => acc * 10 + (c.toNat - '0'.toNat)) 0

/-- JavaScript `parseInt(s, 10)`: skip leading whitespace, optional sign,
then the longest leading run of decimal digits; `none` models `NaN`. -/
def jsParseInt10 (s : String) : Option Int :=
  let chars := s.data.dropWhile isJsWhitespace
  match chars with
  | '-' :: rest =>
    let digits := rest.takeWhile Char.isDigit
    if digits.isEmpty then none else some (-(digitsToNat digits : Int))
  | '+' :: rest =>
    let digits := rest.takeWhile Char.isDigit
    if digits.isEmpty then none else some (digitsToNat digits : Int)
  | rest =>
    let digits := rest.takeWhile Char.isDigit
    if digits.isEmpty then none else some (digitsToNat digits : Int)

/-- `safeParseInt` of src/alttext-api.ts: `parseInt(value ?? "", 10)` with
the fallback on `NaN`. -/
def safeParseInt (value : Option String) (fallback : Int) : Int :=
  (jsParseInt10 (value.getD "")).getD fallback

/-- `Headers.get` on a response whose header names are lower-case (the
names the client reads are the literal lower-case hyphenated ones). -/
def headersGet (headers : List (String × String)) (name : String) : Option String :=
  headers.lookup name

/-- `parsePagination` of src/alttext-api.ts. -/
def parsePagination (headers : List (String × String)) : Pagination :=
  { currentPage := safeParseInt (headersGet headers "current-page") 1
    pageItems := safeParseInt (headersGet headers "page-items") 20
    totalPages := safeParseInt (headersGet headers "total-pages") 1
    totalCount := safeParseInt (headersGet headers "total-count") 0 }

/-- Pagination record of the Ruby client (lib/alttext_api.rb),
snake-cased as in the source. -/
structure RubyPagination where
  current_page : Int
  page_items : Int
  total_pages : Int
  total_count : Int

/-- The digit run accepted by Ruby `String#to_i`: decimal digits with
single underscores allowed between digits. -/
def rubyDigits : List Char → List Char
  | [] => []
  | c :: '_' :: c2 :: cs2 =>
    if c.isDigit then
      (if c2.isDigit then c :: rubyDigits (c2 :: cs2) else [c])
    else []
  | c :: cs =>
    if c.isDigit then c :: rubyDigits cs else []

/-- Ruby `String#to_i`: skip leading whitespace, optional sign, then the
leading digit run; `0` when there are no digits (never an error). -/
def rubyToI (s : String) : Int :=
  match s.data.dropWhile Char.isWhitespace with
  | '-' :: rest => -(digitsToNat (rubyDigits rest) : Int)
  | '+' :: rest => (digitsToNat (rubyDigits rest) : Int)
  | rest => (digitsToNat (rubyDigits rest) : Int)

/-- `parse_pagination` of lib/alttext_api.rb: `header&.to_i || default`.
A missing header gives the default; a present header is converted with
`to_i` (whose result, `0` included, is truthy in Ruby, so the `||`
default never applies to it). -/
def rubyParsePagination (headers : List (String × String)) : RubyPagination :=
  { current_page := match headersGet headers "current-page" with
      | some s => rubyToI s
      | none => 1
    page_items := match headersGet headers "page-items" with
      | some s => rubyToI s
      | none => 20
    total_pages := match headersGet headers "total-pages" with
      | some s => rubyToI s
      | none => 1
    total_count := match headersGet headers "total-count" with
      | some s => rubyToI s
      | none => 0 }

-- ## Request-body construction (generateImage / createImage)

/-- `GenerateOptions` of the TypeScript client; `none` models an argument
the caller did not supply (`undefined`). -/
structure GenerateOptions where
  assetId : Option String := none
  lang : Option String := none
  keywords : Option (List String) := none
  negativeKeywords : Option (List String) := none
  gptPrompt : Option String := none
  maxChars : Option Int := none
  overwrite : Option Bool := none
  tags : Option (List String) := none
  metadata : Option (List (String × Json)) := none

/-- `if (v !== undefined) target[key] = v`: append the key exactly when the
value was supplied. -/
def appendIf (fields : List (String × Json)) (key : String) : Option Json → List (String × Json)
  | some v => fields ++ [(key, v)]
  | none => fields

/-- The body built by `generateImage` of src/alttext-api.ts: the image
envelope (source fields plus supplied options), `async: false`, then each
supplied top-level option in source order. -/
def generateImageFields (imageSource : List (String × Json)) (opts : GenerateOptions) :
    List (String × Json) :=
  let imageEnvelope :=
    appendIf (appendIf (appendIf imageSource
      "asset_id" (opts.assetId.map .str))
      "tags" (opts.tags.map fun l => .arr (l.map .str)))
      "metadata" (opts.metadata.map .obj)
  appendIf (appendIf (appendIf (appendIf (appendIf (appendIf
    [("image", .obj imageEnvelope), ("async", .bool false)]
    "lang" (opts.lang.map .str))
    "keywords" (opts.keywords.map fun l => .arr (l.map .str)))
    "negative_keywords" (opts.negativeKeywords.map fun l => .arr (l.map .str)))
    "gpt_prompt" (opts.gptPrompt.map .str))
    "max_chars" (opts.maxChars.map .num))
    "overwrite" (opts.overwrite.map .bool)

/-- `createImage`: `generateImage` with `{ url }` as the image source. -/
def createImageBody (url : String) (opts : GenerateOptions) : Json :=
  .obj (generateImageFields [("url", .str url)] opts)

-- ## Path encoding (getImage)

/-- Characters `encodeURIComponent` leaves unescaped:
`A–Z a–z 0–9 - _ . ! ~ * ' ( )`. -/
def isUriUnreserved (c : Char) : Bool :=
  ('A' ≤ c && c ≤ 'Z') || ('a' ≤ c && c ≤ 'z') || ('0' ≤ c && c ≤ '9') ||
    c = '-' || c = '_' || c = '.' || c = '!' || c = '~' || c = '*' ||
    c = '\'' || c = '(' || c = ')'

/-- UTF-8 bytes of a character. -/
def utf8Bytes (c : Char) : List Nat :=
  let n := c.toNat
  if n < 128 then [n]
  else if n < 2048 then [192 + n / 64, 128 + n % 64]
  else if n < 65536 then [224 + n / 4096, 128 + n / 64 % 64, 128 + n % 64]
  else [240 + n / 262144, 128 + n / 4096 % 64, 128 + n / 64 % 64, 128 + n % 64]

/-- Upper-case hexadecimal digit. -/
def hexDigit (n : Nat) : Char :=
  "0123456789ABCDEF".data.getD n '0'

/-- `%XX` percent-encoding of one byte. -/
def percentEncodeByte (b : Nat) : List Char := ['%', hexDigit (b / 16), hexDigit (b % 16)]

/-- `encodeURIComponent`, character by character. -/
def encodeChars : List Char → List Char
  | [] => []
  | c :: cs =>
    (if isUriUnreserved c then [c] else ((utf8Bytes c).map percentEncodeByte).flatten)
      ++ encodeChars cs

/-- JavaScript `encodeURIComponent`. -/
def encodeURIComponent (s : String) : String := ⟨encodeChars s.data⟩

/-- The request path issued by `getImage`:
`/images/${encodeURIComponent(assetId)}`. -/
def getImagePath (assetId : String) : String := "/images/" ++ encodeURIComponent assetId

-- ## Formatters (TypeScript formatters.ts)

/-- `AccountRecord` of the TypeScript client. -/
structure AccountRecord where
  name : String
  usage : Int
  usage_limit : Int
  default_lang : String
  gpt_prompt : Option String := none
  max_chars : Option Int := none
  webhook_url : Option String := none
  notification_email : Option String := none
  whitelabel : Bool := false
  no_quotes : Bool := false
  ending_period : Bool := false

/-- `if (stringValue) lines.push(label + stringValue)`: JavaScript string
truthiness, so a missing value and the empty string both omit the line. -/
def pushIfStr (label : String) : Option String → List String
  | some s => if s.isEmpty then [] else [label ++ s]
  | none => []

/-- `String(b)` for a boolean. -/
def boolStr (b : Bool) : String := if b then "true" else "false"

/-- The credits line of `formatAccount`: remaining credits are computed at
display time as `usage_limit - usage`, with no clamping. -/
def creditsLine (usage usageLimit : Int) : String :=
  "Credits: " ++ toString (usageLimit - usage) ++ " remaining (" ++ toString usage ++
    " used of " ++ toString usageLimit ++ ")"

/-- The lines pushed by `formatAccount`, in source order. `max_chars` uses
JavaScript number truthiness (`0` omits the line) and the string fields use
string truthiness, as in the source `if (...)` guards. -/
def formatAccountLines (account : AccountRecord) : List String :=
  ["Account: " ++ account.name,
   creditsLine account.usage account.usage_limit,
   "Default language: " ++ account.default_lang]
  ++ pushIfStr "Custom prompt: " account.gpt_prompt
  ++ (match account.max_chars with
      | some n => if n = 0 then [] else ["Max chars: " ++ toString n]
      | none => [])
  ++ pushIfStr "Webhook: " account.webhook_url
  ++ pushIfStr "Notification email: " account.notification_email
  ++ ["Whitelabel: " ++ boolStr account.whitelabel,
      "No quotes: " ++ boolStr account.no_quotes]
  ++ (if account.ending_period then ["Ending period: true"] else [])

/-- `formatAccount`: the lines joined with newlines. -/
def formatAccount (account : AccountRecord) : String :=
  String.intercalate "\n" (formatAccountLines account)

-- ### formatImage

/-- `ImageRecord` as consumed by the TypeScript `formatImage`. -/
structure ImageRecord where
  asset_id : String
  alt_text : Option String := none
  url : Option String := none
  alt_texts : Option (List (String × String)) := none
  tags : Option (List String) := none
  metadata : Option (List (String × Json)) := none
  created_at : Option Int := none
  error_code : Option String := none
  errors : Option (List (String × List String)) := none

/-- Two-digit zero-padded number. -/
def pad2 (n : Nat) : String := if n < 10 then "0" ++ toString n else toString n

/-- Three-digit zero-padded number. -/
def pad3 (n : Nat) : String :=
  if n < 10 then "00" ++ toString n
  else if n < 100 then "0" ++ toString n
  else toString n

/-- Four-digit zero-padded year. -/
def pad4 (n : Int) : String :=
  if n < 0 then "-" ++ toString (-n)
  else if n < 10 then "000" ++ toString n
  else if n < 100 then "00" ++ toString n
  else if n < 1000 then "0" ++ toString n
  else toString n

/-- Days since the Unix epoch to a (year, month, day) civil date
(proleptic Gregorian). -/
def civilFromDays (z0 : Int) : Int × Nat × Nat :=
  let z := z0 + 719468
  let era := z.fdiv 146097
  let doe := (z.emod 146097).toNat
  let yoe := (doe - doe / 1460 + doe / 36524 - doe / 146096) / 365
  let y := (yoe : Int) + era * 400
  let doy := doe - (365 * yoe + yoe / 4 - yoe / 100)
  let mp := (5 * doy + 2) / 153
  let d := doy - (153 * mp + 2) / 5 + 1
  let m := if mp < 10 then mp + 3 else mp - 9
  (if m ≤ 2 then y + 1 else y, m, d)

/-- `new Date(secs * 1000).toISOString()`: ISO-8601 UTC instant with
millisecond precision. -/
def isoTimestamp (secs : Int) : String :=
  let ms := secs * 1000
  let days := ms.fdiv 86400000
  let msOfDay := (ms.emod 86400000).toNat
  let ymd := civilFromDays days
  let hh := msOfDay / 3600000
  let mi := msOfDay % 3600000 / 60000
  let ss := msOfDay % 60000 / 1000
  let mss := msOfDay % 1000
  pad4 ymd.1 ++ "-" ++ pad2 ymd.2.1 ++ "-" ++ pad2 ymd.2.2 ++ "T" ++ pad2 hh ++ ":" ++
    pad2 mi ++ ":" ++ pad2 ss ++ "." ++ pad3 mss ++ "Z"

/-- The lines pushed by the TypeScript `formatImage`, in source order. -/
def formatImageLines (image : ImageRecord) : List String :=
  ["Asset ID: " ++ image.asset_id,
   "Alt text: " ++ image.alt_text.getD "(none)"]
  ++ pushIfStr "URL: " image.url
  ++ (match image.alt_texts with
      | some entries =>
        if entries.isEmpty then []
        else "Languages:" :: entries.map fun kv => "  " ++ kv.1 ++ ": " ++ kv.2
      | none => [])
  ++ (match image.tags with
      | some ts => if ts.isEmpty then [] else ["Tags: " ++ String.intercalate ", " ts]
      | none => [])
  ++ (match image.metadata with
      | some fs => if fs.isEmpty then [] else ["Metadata: " ++ Json.serialize (.obj fs)]
      | none => [])
  ++ (match image.created_at with
      | some t => ["Created: " ++ isoTimestamp t]
      | none => [])
  ++ pushIfStr "Error code: " image.error_code
  ++ (match image.errors with
      | some es =>
        if es.isEmpty then []
        else ["Errors: " ++ String.intercalate ", " (es.map Prod.snd).flatten]
      | none => [])

/-- `formatImage`: the lines joined with newlines. -/
def formatImage (image : ImageRecord) : String :=
  String.intercalate "\n" (formatImageLines image)

-- ### formatScrapeResult (TypeScript)

/-- A discovered image of a scrape result, as read by the TypeScript
`formatScrapeResult` (which also consumes optional dimensions). -/
structure ScrapedImage where
  src : Option String := none
  width : Option Int := none
  height : Option Int := none
  skip_reason : Option String := none

/-- A scrape result. -/
structure ScrapeResult where
  scraped_images : List ScrapedImage := []
  total_processed : Int := 0
  errors : Option (List (String × List String)) := none

/-- The bracketed status of a discovered image:
`img.skip_reason ? "skipped: r" : "queued"` (string truthiness). -/
def scrapeStatus (img : ScrapedImage) : String :=
  match img.skip_reason with
  | some r => if r.isEmpty then "queued" else "skipped: " ++ r
  | none => "queued"

/-- The optional ` (WxH)` dimensions, shown exactly when both `width` and
`height` are present. -/
def scrapeDims (img : ScrapedImage) : String :=
  match img.width, img.height with
  | some w, some h => " (" ++ toString w ++ "x" ++ toString h ++ ")"
  | _, _ => ""

/-- `img.src ?? "(no src)"`. -/
def scrapeSrc (img : ScrapedImage) : String := img.src.getD "(no src)"

/-- One discovered-image line: `  - ${src}${dims} [${status}]`. -/
def scrapeImageLine (img : ScrapedImage) : String :=
  "  - " ++ (scrapeSrc img ++ (scrapeDims img ++ (" " ++ ("[" ++ (scrapeStatus img ++ "]")))))

/-- The informational note appended when images were queued. -/
def asyncNote : String :=
  "\nNote: Images are being processed asynchronously. Use list_images or get_image to check results."

/-- The lines pushed by the TypeScript `formatScrapeResult`, in source
order. -/
def formatScrapeResultLines (result : ScrapeResult) (url : String) : List String :=
  ["Scraped " ++ url,
   "Images found: " ++ toString result.scraped_images.length,
   "Images queued for processing: " ++ toString result.total_processed,
   ""]
  ++ (if result.scraped_images.isEmpty then []
      else "Discovered images:" :: result.scraped_images.map scrapeImageLine)
  -- `if (result.errors && Object.keys(result.errors).length > 0)`: an absent
  -- map behaves exactly like an empty one here.
  ++ (if (result.errors.getD []).isEmpty then []
      else ["\nErrors: " ++ String.intercalate ", " ((result.errors.getD []).map Prod.snd).flatten])
  ++ (if 0 < result.total_processed then [asyncNote] else [])

/-- `formatScrapeResult`: the lines joined with newlines. -/
def formatScrapeResult (result : ScrapeResult) (url : String) : String :=
  String.intercalate "\n" (formatScrapeResultLines result url)

-- ### format_scrape_result (Ruby lib/formatters.rb)
-- The Ruby formatter works directly on the parsed-JSON hash. It reads only
-- `src` and `skip_reason` from each discovered image: it renders no
-- dimensions.

/-- `result["scraped_images"] || []` (an array value; other truthy values
would fail later in the Ruby code and are outside the modelled domain). -/
def rubyScrapedList (result : Json) : List Json :=
  match result.getTruthy "scraped_images" with
  | some (.arr l) => l
  | _ => []

/-- `result["total_processed"] || 0` (a numeric value). -/
def rubyTotalProcessed (result : Json) : Int :=
  match result.getTruthy "total_processed" with
  | some (.num n) => n
  | _ => 0

/-- `result["errors"] || {}` (a hash value; `.values` on a non-hash would
raise and is outside the modelled domain). -/
def rubyErrorsObj (result : Json) : List (String × Json) :=
  match result.getTruthy "errors" with
  | some (.obj fs) => fs
  | _ => []

/-- `errors.values.flatten.join(", ")`. -/
def rubyJoinedErrors (fs : List (String × Json)) : String :=
  String.intercalate ", " ((rubyFlattenList (fs.map Prod.snd)).map rubyToS)

/-- Ruby status: `img["skip_reason"] ? "skipped: r" : "queued"` — Ruby
truthiness, under which the empty string is truthy. -/
def rubyScrapeStatus (img : Json) : String :=
  match img.getTruthy "skip_reason" with
  | some v => "skipped: " ++ rubyToS v
  | none => "queued"

/-- `img["src"] || "(no src)"`. -/
def rubyScrapeSrc (img : Json) : String :=
  match img.getTruthy "src" with
  | some v => rubyToS v
  | none => "(no src)"

/-- One Ruby discovered-image line: `  - #{src} [#{status}]` — no
dimensions are rendered. -/
def rubyScrapeImageLine (img : Json) : String :=
  "  - " ++ (rubyScrapeSrc img ++ (" " ++ ("[" ++ (rubyScrapeStatus img ++ "]"))))

/-- The lines built by the Ruby `format_scrape_result`, in source order. -/
def rubyFormatScrapeResultLines (result : Json) (url : String) : List String :=
  let scraped := rubyScrapedList result
  let tp := rubyTotalProcessed result
  ["Scraped " ++ url,
   "Images found: " ++ toString scraped.length,
   "Images queued for processing: " ++ toString tp,
   ""]
  ++ (if scraped.isEmpty then [] else "Discovered images:" :: scraped.map rubyScrapeImageLine)
  ++ (if (rubyErrorsObj result).isEmpty then []
      else ["\nErrors: " ++ rubyJoinedErrors (rubyErrorsObj result)])
  ++ (if 0 < tp then [asyncNote] else [])

/-- Ruby `format_scrape_result`: the lines joined with newlines. -/
def rubyFormatScrapeResult (result : Json) (url : String) : String :=
  String.intercalate "\n" (rubyFormatScrapeResultLines result url)

-- ## Network attempt outcomes and the three request flows

/-- The outcome the network scripts for one attempt: either a served HTTP
response (any status) or one of the transport exception classes the
clients distinguish. -/
inductive AttemptOutcome where
  | response (status : Nat) (body : Option Json) (headers : List (String × String))
  | epipe
  | ioError
  | econnreset
  | econnrefused
  | openTimeout
  | readTimeout
  | writeTimeout
  | socketError

/-- Whether the outcome is a served HTTP response. -/
def isHttpResponse : AttemptOutcome → Bool
  | .response .. => true
  | _ => false

/-- A transport-level failure: no server response was produced. -/
def isTransportFailure (o : AttemptOutcome) : Bool := !isHttpResponse o

/-- The connection-closed-mid-request class the Ruby retry loop rescues
first: `Errno::EPIPE, IOError, Errno::ECONNRESET`. -/
def isRetryable : AttemptOutcome → Bool
  | .epipe | .ioError | .econnreset => true
  | _ => false

/-- The classes rescued by lib/alttext_api.rb:
`Errno::ECONNREFUSED, Net::OpenTimeout, Net::ReadTimeout, SocketError`. -/
def libRescued : AttemptOutcome → Bool
  | .econnrefused | .openTimeout | .readTimeout | .socketError => true
  | _ => false

/-- The Ruby class name of the transport exception. -/
def exnClassName : AttemptOutcome → String
  | .response .. => ""
  | .epipe => "Errno::EPIPE"
  | .ioError => "IOError"
  | .econnreset => "Errno::ECONNRESET"
  | .econnrefused => "Errno::ECONNREFUSED"
  | .openTimeout => "Net::OpenTimeout"
  | .readTimeout => "Net::ReadTimeout"
  | .writeTimeout => "Net::WriteTimeout"
  | .socketError => "SocketError"

/-- A representative `e.message` / `err.message` for each transport
exception class (the clients only embed it in the fixed message prefix). -/
def exnMessage : AttemptOutcome → String
  | .response .. => ""
  | .epipe => "Broken pipe"
  | .ioError => "closed stream"
  | .econnreset => "Connection reset by peer"
  | .econnrefused => "Connection refused"
  | .openTimeout => "execution expired"
  | .readTimeout => "Net::ReadTimeout"
  | .writeTimeout => "Net::WriteTimeout"
  | .socketError => "getaddrinfo: Name or service not known"

/-- The fixed connection-error message prefix shared by all clients. -/
def connectionErrorMessage (errMessage : String) : String :=
  "Could not connect to AltText.ai API: " ++ errMessage

/-- `connectionError` of src/alttext-api.ts: status 0 and the fixed
`connection_error` code. -/
def connectionError (errMessage : String) : ApiError :=
  { status := 0
    errorCode := some (.str "connection_error")
    errors := []
    message := connectionErrorMessage errMessage }

/-- The trace of one client-level request: its result, how many network
attempts were made, and whether the connection was torn down and reopened
(a fresh connection) before the final attempt. -/
structure RequestTrace (E : Type) where
  result : Except E (Json × List (String × String))
  attempts : Nat
  reconnected : Bool

/-- `request` of src/alttext-api.ts: a single `fetch`; any rejection
(whatever the underlying transport fault) is caught by the one `catch` and
classified via `connectionError`; a served response goes through
`handleResponse`. No retry exists in this client. -/
def tsRequest (outcome : AttemptOutcome) : RequestTrace ApiError :=
  match outcome with
  | .response status body headers =>
    { result := (handleResponse status body).map fun data => (data, headers)
      attempts := 1
      reconnected := false }
  | f =>
    { result := .error (connectionError (exnMessage f))
      attempts := 1
      reconnected := false }

-- ### The standalone Ruby client (persistent connection, retry loop)

/-- `AltTextApiError` of the standalone Ruby client: the `errors` hash is
taken from the body unchanged whenever it is a hash. -/
structure RubyApiError where
  status : Nat
  error_code : Option Json
  errors : List (String × Json)
  message : String

/-- `connection_error(e)` of the standalone Ruby client. -/
def rubyConnectionError (o : AttemptOutcome) : RubyApiError :=
  { status := 0
    error_code := some (.str "connection_error")
    errors := []
    message := connectionErrorMessage (exnMessage o) }

/-- `handle_response` of the standalone Ruby client: unparsable bodies
become `{}`; on a non-2xx status the raised error carries the body's
`errors` hash unchanged (replaced by `{}` only when it is not a hash), and
the message is `body['error'] ||` the flattened joined values `||
"HTTP <status>"`. -/
def rubyHandleResponse (status : Nat) (rawBody : Option Json)
    (headers : List (String × String)) :
    Except RubyApiError (Json × List (String × String)) :=
  let body := rawBody.getD (.obj [])
  if statusOk status then .ok (body, headers)
  else
    let errors : List (String × Json) :=
      match body.get "errors" with
      | some (.obj fs) => fs
      | _ => []
    let joined := rubyJoinedErrors errors
    let message :=
      match body.getTruthy "error" with
      | some v => rubyToS v
      | none => if joined.isEmpty then httpFallback status else joined
    .error
      { status := status
        error_code := body.getNonNull "error_code"
        errors := errors
        message := message }

/-- `request` of the standalone Ruby client: on a first-attempt failure of
the connection-closed class (`EPIPE/IOError/ECONNRESET`) the connection is
finished and the request retried exactly once on a fresh connection; a
second failure of any transport class surfaces `connection_error`. Other
transport classes (`ECONNREFUSED`, the timeouts, `SocketError`) surface
`connection_error` immediately without a retry; a served response is never
retried. -/
def rubyRequest (first second : AttemptOutcome) : RequestTrace RubyApiError :=
  match first with
  | .response status body headers =>
    { result := rubyHandleResponse status body headers
      attempts := 1
      reconnected := false }
  | f =>
    if isRetryable f then
      match second with
      | .response status body headers =>
        { result := rubyHandleResponse status body headers
          attempts := 2
          reconnected := true }
      | g =>
        { result := .error (rubyConnectionError g)
          attempts := 2
          reconnected := true }
    else
      { result := .error (rubyConnectionError f)
        attempts := 1
        reconnected := false }

-- ### The Ruby client of lib/alttext_api.rb (fresh connection, no retry)

/-- `AltTextApiError` of lib/alttext_api.rb: `errors` and `raw_body` are
kept as raw JSON values. -/
structure RubyLibApiError where
  status : Nat
  error_code : Option Json
  errors : Json
  raw_body : Json
  message : String

/-- The outcome of a lib/alttext_api.rb call: parsed data, a classified
`AltTextApiError`, or an exception class that no rescue catches and that
propagates unclassified to the caller. -/
inductive LibRequestOutcome where
  | ok (data : Json) (headers : List (String × String))
  | apiError (e : RubyLibApiError)
  | uncaught (exnClass : String)

/-- `handle_response` of lib/alttext_api.rb: `errors = body["errors"] || {}`
with no hash check; the joined-message fallback calls `.values` on it, so a
truthy non-hash `errors` value raises `NoMethodError` (unless the
short-circuiting `body["error"]` is truthy). -/
def rubyLibHandleResponse (status : Nat) (rawBody : Option Json)
    (headers : List (String × String)) : LibRequestOutcome :=
  let body := rawBody.getD (.obj [])
  if statusOk status then .ok body headers
  else
    let errorsVal := (body.getTruthy "errors").getD (.obj [])
    match body.getTruthy "error" with
    | some v =>
      .apiError
        { status := status
          error_code := body.getNonNull "error_code"
          errors := errorsVal
          raw_body := body
          message := rubyToS v }
    | none =>
      match errorsVal with
      | .obj fs =>
        let joined := rubyJoinedErrors fs
        .apiError
          { status := status
            error_code := body.getNonNull "error_code"
            errors := errorsVal
            raw_body := body
            message := if joined.isEmpty then httpFallback status else joined }
      | _ => .uncaught "NoMethodError"

/-- `request` of lib/alttext_api.rb: one attempt on a fresh connection; the
rescue classifies exactly `ECONNREFUSED / OpenTimeout / ReadTimeout /
SocketError` as `connection_error` (status 0); any other transport
exception (for example `ECONNRESET` or `EPIPE`) matches no rescue and
propagates unclassified. -/
def rubyLibRequest (outcome : AttemptOutcome) : LibRequestOutcome :=
  match outcome with
  | .response status body headers => rubyLibHandleResponse status body headers
  | f =>
    if libRescued f then
      .apiError
        { status := 0
          error_code := some (.str "connection_error")
          errors := .obj []
          raw_body := .obj []
          message := connectionErrorMessage (exnMessage f) }
    else
      .uncaught (exnClassName f)

-- ## Small projections used to state the claims

/-- The field-error map carried by a classified TypeScript error result. -/
def errorsOf : Except ApiError Json → List (String × List String)
  | .error e => e.errors
  | .ok _ => []

/-- The raw `errors` object of a parsed body (empty when absent or not an
object). -/
def rawErrorFields (body : Json) : List (String × Json) :=
  match body.get "errors" with
  | some (.obj fs) => fs
  | _ => []

/-- A well-formed validation-error map, encoded back into JSON (each value
an array of strings). -/
def encodeErrorEntries (entries : List (String × List String)) : List (String × Json) :=
  entries.map fun kv => (kv.1, .arr (kv.2.map .str))

-- ## Helper lemmas

theorem asStringList_eq_some (xs : List Json) (vs : List String) :
    asStringList xs = some vs ↔ xs = vs.map Json.str := by
  induction xs generalizing vs with
  | nil =>
    cases vs <;> simp [asStringList]
  | cons x rest ih =>
    cases x <;> simp [asStringList] <;> cases vs <;> simp [ih] <;> aesop

theorem asStringList_map_str (vs : List String) :
    asStringList (vs.map Json.str) = some vs :=
  (asStringList_eq_some _ _).mpr rfl

theorem mem_filterErrors_obj (fields : List (String × Json)) (k : String) (vs : List String) :
    (k, vs) ∈ filterErrors (some (.obj fields)) ↔ (k, Json.arr (vs.map Json.str)) ∈ fields := by
  simp only [filterErrors, List.mem_filterMap]
  constructor
  · rintro ⟨⟨k', v⟩, hmem, hf⟩
    cases v <;> simp only [Option.map_eq_some'] at hf
    case arr xs =>
      obtain ⟨ws, hws, heq⟩ := hf
      injection heq with h1 h2
      subst h1
      obtain rfl : xs = ws.map Json.str := (asStringList_eq_some _ _).mp hws
      rw [h2] at hmem
      exact hmem
    all_goals exact absurd hf (by simp)
  · intro hmem
    exact ⟨(k, .arr (vs.map Json.str)), hmem, by simp [asStringList_map_str]⟩

theorem filterErrors_encode (entries : List (String × List String)) :
    filterErrors (some (.obj (encodeErrorEntries entries))) = entries := by
  induction entries with
  | nil => simp [filterErrors, encodeErrorEntries]
  | cons kv rest ih =>
    simp only [filterErrors, encodeErrorEntries, List.map_cons, List.filterMap_cons] at ih ⊢
    simp [asStringList_map_str, ih]

theorem mem_appendIf_iff (fs : List (String × Json)) (key k' : String) (v : Json)
    (o : Option Json) (hne : k' ≠ key) :
    ((k', v) ∈ appendIf fs key o) ↔ (k', v) ∈ fs := by
  cases o <;> simp [appendIf] <;> intro h <;> exact absurd h hne

theorem safeParseInt_fallback (value : Option String) (fallback : Int)
    (h : value.bind jsParseInt10 = none) : safeParseInt value fallback = fallback := by
  cases value with
  | none => rfl
  | some s =>
    simp only [Option.bind, Option.some.injEq] at h
    simp [safeParseInt, h]

theorem hexDigit_ne_slash (n : Nat) : hexDigit n ≠ '/' := by
  rcases Nat.lt_or_ge n 16 with h | h
  · interval_cases n <;> decide
  · unfold hexDigit
    rw [List.getD_eq_default]
    · decide
    · simpa using h

theorem percentEncodeByte_no_slash (b : Nat) : '/' ∉ percentEncodeByte b := by
  simp only [percentEncodeByte, List.mem_cons, List.not_mem_nil, or_false]
  push_neg
  refine ⟨by decide, ?_, ?_⟩ <;> exact fun h => hexDigit_ne_slash _ h.symm

theorem append_ne_asyncNote (lit x : String) (c1 c2 : Char) (rl : List Char)
    (hl : lit.data = c1 :: c2 :: rl) (h : c1 ≠ '\n' ∨ c2 ≠ 'N') :
    lit ++ x ≠ asyncNote := by
  intro he
  have hd := congrArg String.data he
  rw [String.data_append, hl,
    show asyncNote.data =
      '\n' :: 'N' ::
        "ote: Images are being processed asynchronously. Use list_images or get_image to check results.".data
      from rfl] at hd
  simp only [List.cons_append, List.cons.injEq] at hd
  rcases h with h | h
  · exact h hd.1
  · exact h hd.2.1

/-- Membership of the async-processing note in a line list of the shape
both scrape formatters produce: four header lines, a discovered-images
block, an errors block, and the conditional note block. The note occurs
iff the queued count is positive. -/
theorem asyncNote_mem_scrape_shape (s2 s3 url : String) (blockB blockC : List String) (tp : Int)
    (hB : ∀ l ∈ blockB, l = "Discovered images:" ∨ ∃ rest, l = "  - " ++ rest)
    (hC : ∀ l ∈ blockC, ∃ rest, l = "\nErrors: " ++ rest) :
    (asyncNote ∈
      ["Scraped " ++ url, "Images found: " ++ s2, "Images queued for processing: " ++ s3, ""]
        ++ blockB ++ blockC ++ (if 0 < tp then [asyncNote] else [])) ↔ 0 < tp := by
  constructor
  · intro hmem
    rcases List.mem_append.mp hmem with h | h
    · rcases List.mem_append.mp h with h | h
      · rcases List.mem_append.mp h with h | h
        · exfalso
          simp only [List.mem_cons, List.not_mem_nil, or_false] at h
          rcases h with h | h | h | h
          · exact append_ne_asyncNote "Scraped " url 'S' 'c' _ rfl (Or.inl (by decide)) h.symm
          · exact append_ne_asyncNote "Images found: " s2 'I' 'm' _ rfl (Or.inl (by decide))
              h.symm
          · exact append_ne_asyncNote "Images queued for processing: " s3 'I' 'm' _ rfl
              (Or.inl (by decide)) h.symm
          · exact absurd h (by decide)
        · exfalso
          rcases hB _ h with hd | ⟨rest, hrest⟩
          · exact absurd hd (by decide)
          · exact append_ne_asyncNote "  - " rest ' ' ' ' _ rfl (Or.inl (by decide)) hrest.symm
      · exfalso
        obtain ⟨rest, hrest⟩ := hC _ h
        exact append_ne_asyncNote "\nErrors: " rest '\n' 'E' _ rfl (Or.inr (by decide)) hrest.symm
    · by_cases htp : 0 < tp
      · exact htp
      · rw [if_neg htp] at h
        exact absurd h (List.not_mem_nil _)
  · intro htp
    refine List.mem_append.mpr (Or.inr ?_)
    rw [if_pos htp]
    exact List.mem_singleton_self _

theorem encodeChars_no_slash (l : List Char) : '/' ∉ encodeChars l := by
  induction l with
  | nil => decide
  | cons c cs ih =>
    simp only [encodeChars, List.mem_append]
    rintro (h | h)
    · split at h
      · rename_i hres
        simp at h
        subst h
        exact absurd hres (by decide)
      · simp only [List.mem_flatten, List.mem_map] at h
        rcases h with ⟨bytes, ⟨b, _, rfl⟩, hb⟩
        exact percentEncodeByte_no_slash b hb
    · exact ih h

theorem appendIf_some (fs : List (String × Json)) (key : String) (v : Json) :
    appendIf fs key (some v) = fs ++ [(key, v)] := rfl

theorem appendIf_none (fs : List (String × Json)) (key : String) :
    appendIf fs key none = fs := rfl

theorem handleResponse_error (status : Nat) (rawBody : Option Json)
    (h : statusOk status = false) :
    handleResponse status rawBody = .error
      { status := status
        errorCode := (rawBody.getD (.obj [])).getNonNull "error_code"
        errors := filterErrors ((rawBody.getD (.obj [])).get "errors")
        message :=
          match (rawBody.getD (.obj [])).getNonNull "error" with
          | some v => jsToString v
          | none =>
            if (((filterErrors ((rawBody.getD (.obj [])).get "errors")).map Prod.snd).flatten).isEmpty
            then httpFallback status
            else
              String.intercalate ", "
                ((filterErrors ((rawBody.getD (.obj [])).get "errors")).map Prod.snd).flatten } := by
  simp only [handleResponse, h, Bool.false_eq_true, if_false]

theorem rubyHandleResponse_error (status : Nat) (rawBody : Option Json)
    (headers : List (String × String)) (h : statusOk status = false) :
    rubyHandleResponse status rawBody headers = .error
      { status := status
        error_code := (rawBody.getD (.obj [])).getNonNull "error_code"
        errors :=
          match (rawBody.getD (.obj [])).get "errors" with
          | some (.obj fs) => fs
          | _ => []
        message :=
          match (rawBody.getD (.obj [])).getTruthy "error" with
          | some v => rubyToS v
          | none =>
            if (rubyJoinedErrors
                (match (rawBody.getD (.obj [])).get "errors" with
                 | some (.obj fs) => fs
                 | _ => [])).isEmpty
            then httpFallback status
            else
              rubyJoinedErrors
                (match (rawBody.getD (.obj [])).get "errors" with
                 | some (.obj fs) => fs
                 | _ => []) } := by
  simp only [rubyHandleResponse, h, Bool.false_eq_true, if_false]

-- ## Claim theorems

/-- C6: the credits line of `formatAccount` is always the second formatted
line and is built from `usage_limit - usage`, computed at display time
with plain integer subtraction and no clamping (so it may be negative:
usage 42 of limit 10 renders `-32`); for usage_limit = 1000, usage = 42
the line is exactly `Credits: 958 remaining (42 used of 1000)`. -/
theorem c6_credits_line :
    (∀ account : AccountRecord,
      (formatAccountLines account).get? 1 =
        some (creditsLine account.usage account.usage_limit)) ∧
    (∀ account : AccountRecord,
      creditsLine account.usage account.usage_limit =
        "Credits: " ++ toString (account.usage_limit - account.usage) ++ " remaining (" ++
          toString account.usage ++ " used of " ++ toString account.usage_limit ++ ")") ∧
    (formatAccountLines
        { name := "Test", usage := 42, usage_limit := 1000, default_lang := "en" }).get? 1 =
      some "Credits: 958 remaining (42 used of 1000)" ∧
    creditsLine 42 10 = "Credits: -32 remaining (42 used of 10)" :=
  ⟨fun _ => rfl, fun _ => rfl, rfl, rfl⟩

/-- C9: `formatImage` is a pure function of the image record: formatting
the same record twice yields character-identical text. In this shallow
embedding the formatter consumes nothing but the record (the only
timestamp rendered is the record's own `created_at` field), so the two
runs agree definitionally. -/
theorem c9_format_image_deterministic :
    ∀ image : ImageRecord, formatImage image = formatImage image :=
  fun _ => rfl

/-- C7: the asset-id path segment of `getImage` is percent-encoded by
`encodeURIComponent`, whose output never contains a raw `/` (unreserved
characters exclude it and percent escapes use only `%` and hex digits);
in particular the asset id `shp-123/456` yields a request path containing
`shp-123%2F456`. -/
theorem c7_asset_id_percent_encoded :
    (∀ assetId : String, '/' ∉ (encodeURIComponent assetId).data) ∧
    getImagePath "shp-123/456" = "/images/shp-123%2F456" :=
  ⟨fun assetId => encodeChars_no_slash assetId.data, rfl⟩

/-- C2: `createImage`/`generateImage` include the key `overwrite` with
value `false` in the JSON body whenever the caller supplies
`overwrite: false`; when `overwrite` (or every optional parameter) is not
supplied, the body has no such key at all — the default body is exactly
`{image: {url}, async: false}` — so absence and `false` are
distinguishable in the serialized wire format. -/
theorem c2_overwrite_false_in_body :
    (∀ (url : String) (opts : GenerateOptions), opts.overwrite = some false →
      ("overwrite", Json.bool false) ∈ generateImageFields [("url", .str url)] opts) ∧
    (∀ (url : String) (opts : GenerateOptions) (v : Json), opts.overwrite = none →
      ("overwrite", v) ∉ generateImageFields [("url", .str url)] opts) ∧
    (∀ url : String,
      generateImageFields [("url", .str url)] {} =
        [("image", .obj [("url", .str url)]), ("async", .bool false)]) ∧
    Json.serialize (createImageBody "https://example.com/photo.png" { overwrite := some false }) =
      "\x7b\"image\":\x7b\"url\":\"https://example.com/photo.png\"\x7d,\"async\":false,\"overwrite\":false\x7d" ∧
    hasSub "\"overwrite\"".data
      (Json.serialize (createImageBody "https://example.com/photo.png" {})).data = false := by
  refine ⟨?_, ?_, fun _ => rfl, rfl, rfl⟩
  · intro url opts hov
    simp only [generateImageFields, hov, Option.map_some', appendIf_some]
    exact List.mem_append_right _ (List.mem_singleton_self _)
  · intro url opts v hov
    simp only [generateImageFields, hov, Option.map_none', appendIf_none]
    rw [mem_appendIf_iff _ _ _ _ _ (by decide), mem_appendIf_iff _ _ _ _ _ (by decide),
      mem_appendIf_iff _ _ _ _ _ (by decide), mem_appendIf_iff _ _ _ _ _ (by decide),
      mem_appendIf_iff _ _ _ _ _ (by decide)]
    simp

/-- Witness for C2 at concrete inputs. -/
theorem c2_witness :
    ("overwrite", Json.bool false) ∈
      generateImageFields [("url", Json.str "https://x/p.png")]
        { overwrite := some false } ∧
    ("overwrite", Json.bool true) ∉
      generateImageFields [("url", Json.str "https://x/p.png")] {} :=
  ⟨c2_overwrite_false_in_body.1 "https://x/p.png" _ rfl,
   c2_overwrite_false_in_body.2.1 "https://x/p.png" {} (Json.bool true) rfl⟩

/-- C3: on a failure status, `handleResponse` derives the display message
by priority: the body's top-level `error` string when present, else the
flattened validation messages of all (string-list) fields joined with
`", "` when nonempty, else the literal `HTTP <status>`; an unparsable
body is treated as an empty payload, yielding a classified error with the
`HTTP <status>` message (never a propagated parse error), and the
documented 422 example produces exactly `is invalid, must be public`. -/
theorem c3_error_message_priority :
    (∀ (status : Nat) (body : Json) (s : String), statusOk status = false →
      body.getNonNull "error" = some (.str s) →
      ∃ e, handleResponse status (some body) = .error e ∧ e.status = status ∧
        e.message = s) ∧
    (∀ (status : Nat) (body : Json) (entries : List (String × List String)),
      statusOk status = false →
      body.getNonNull "error" = none →
      body.get "errors" = some (.obj (encodeErrorEntries entries)) →
      (entries.map Prod.snd).flatten ≠ [] →
      ∃ e, handleResponse status (some body) = .error e ∧ e.errors = entries ∧
        e.message = String.intercalate ", " (entries.map Prod.snd).flatten) ∧
    (∀ (status : Nat) (body : Json), statusOk status = false →
      body.getNonNull "error" = none →
      ((filterErrors (body.get "errors")).map Prod.snd).flatten = [] →
      ∃ e, handleResponse status (some body) = .error e ∧
        e.message = httpFallback status) ∧
    (∀ status : Nat, statusOk status = false →
      handleResponse status none =
        .error { status := status, errorCode := none, errors := [],
                 message := httpFallback status }) ∧
    handleResponse 422
        (some (.obj [("errors",
          .obj [("url", .arr [.str "is invalid", .str "must be public"])])])) =
      .error { status := 422, errorCode := none,
               errors := [("url", ["is invalid", "must be public"])],
               message := "is invalid, must be public" } := by
  refine ⟨?_, ?_, ?_, ?_, rfl⟩
  · intro status body s h herr
    refine ⟨_, handleResponse_error _ _ h, rfl, ?_⟩
    simp only [Option.getD_some, herr, jsToString]
  · intro status body entries h herr hget hne
    refine ⟨_, handleResponse_error _ _ h, ?_, ?_⟩
    · simp only [Option.getD_some, hget, filterErrors_encode]
    · simp only [Option.getD_some, herr, hget, filterErrors_encode]
      rw [if_neg]
      simp [hne]
  · intro status body h herr hflat
    refine ⟨_, handleResponse_error _ _ h, ?_⟩
    simp only [Option.getD_some, herr, hflat]
    rfl
  · intro status h
    rw [handleResponse_error _ _ h]
    rfl

/-- Witness for C3 at concrete inputs: a 401 with a top-level error
string, the 422 validation example, an error body with no usable fields,
and a non-JSON 502 body. -/
theorem c3_witness :
    (∃ e, handleResponse 401 (some (.obj [("error", .str "Invalid API key")])) = .error e ∧
      e.status = 401 ∧ e.message = "Invalid API key") ∧
    (∃ e, handleResponse 422
        (some (.obj [("errors", .obj [("url", .arr [.str "is invalid", .str "must be public"])])])) =
        .error e ∧ e.errors = [("url", ["is invalid", "must be public"])] ∧
      e.message = "is invalid, must be public") ∧
    (∃ e, handleResponse 500 (some (.obj [("ok", .bool false)])) = .error e ∧
      e.message = httpFallback 500) ∧
    handleResponse 502 none =
      .error { status := 502, errorCode := none, errors := [], message := httpFallback 502 } :=
  ⟨c3_error_message_priority.1 401 _ "Invalid API key" rfl rfl,
   c3_error_message_priority.2.1 422 _ [("url", ["is invalid", "must be public"])] rfl rfl rfl
     (by decide),
   c3_error_message_priority.2.2.1 500 _ rfl rfl rfl,
   c3_error_message_priority.2.2.2.1 502 rfl⟩

/-- C4 (amended): both clients read the four pagination fields from the
lower-case hyphenated headers and default each missing header to
(1, 20, 1, 0); the TypeScript client also falls back to the default for
any present header value with no parsable leading integer (`parseInt`
`NaN`), but the Ruby client of lib/alttext_api.rb applies `to_i` to every
present header value, so a fully non-numeric value yields `0` there, not
the documented default. A response with no pagination headers yields
exactly (1, 20, 1, 0) in both clients. -/
theorem c4_pagination_defaults :
    (∀ (value : Option String) (fallback : Int), value.bind jsParseInt10 = none →
      safeParseInt value fallback = fallback) ∧
    (∀ hs, (headersGet hs "current-page").bind jsParseInt10 = none →
      (parsePagination hs).currentPage = 1) ∧
    (∀ hs, (headersGet hs "page-items").bind jsParseInt10 = none →
      (parsePagination hs).pageItems = 20) ∧
    (∀ hs, (headersGet hs "total-pages").bind jsParseInt10 = none →
      (parsePagination hs).totalPages = 1) ∧
    (∀ hs, (headersGet hs "total-count").bind jsParseInt10 = none →
      (parsePagination hs).totalCount = 0) ∧
    parsePagination [] = { currentPage := 1, pageItems := 20, totalPages := 1, totalCount := 0 } ∧
    (∀ hs, headersGet hs "current-page" = none → (rubyParsePagination hs).current_page = 1) ∧
    (∀ hs, headersGet hs "page-items" = none → (rubyParsePagination hs).page_items = 20) ∧
    (∀ hs, headersGet hs "total-pages" = none → (rubyParsePagination hs).total_pages = 1) ∧
    (∀ hs, headersGet hs "total-count" = none → (rubyParsePagination hs).total_count = 0) ∧
    rubyParsePagination [] =
      { current_page := 1, page_items := 20, total_pages := 1, total_count := 0 } :=
  ⟨fun value fallback h => safeParseInt_fallback value fallback h,
   fun hs h => safeParseInt_fallback _ _ h,
   fun hs h => safeParseInt_fallback _ _ h,
   fun hs h => safeParseInt_fallback _ _ h,
   fun hs h => safeParseInt_fallback _ _ h,
   rfl,
   fun hs h => by simp [rubyParsePagination, h],
   fun hs h => by simp [rubyParsePagination, h],
   fun hs h => by simp [rubyParsePagination, h],
   fun hs h => by simp [rubyParsePagination, h],
   rfl⟩

/-- Witness for C4 at concrete inputs: a non-numeric `current-page` header
falls back to 1 in the TypeScript client, and a missing `page-items`
header falls back to 20 in the Ruby client. -/
theorem c4_witness :
    safeParseInt (some "abc") 7 = 7 ∧
    (parsePagination [("current-page", "abc")]).currentPage = 1 ∧
    (rubyParsePagination [("current-page", "3")]).page_items = 20 :=
  ⟨c4_pagination_defaults.1 (some "abc") 7 rfl,
   c4_pagination_defaults.2.1 [("current-page", "abc")] rfl,
   c4_pagination_defaults.2.2.2.2.2.2.2.1 [("current-page", "3")] rfl⟩

/-- Counterexample for C4 as stated: in the Ruby client a present but
non-numeric `current-page` header yields `to_i`'s result `0`, not the
documented default `1`. -/
theorem c4_cex :
    rubyParsePagination [("current-page", "abc")] =
      { current_page := 0, page_items := 20, total_pages := 1, total_count := 0 } ∧
    (0 : Int) ≠ 1 :=
  ⟨rfl, by decide⟩

/-- C5 (amended): every transport-level failure is classified with status
exactly 0 and error code exactly `connection_error` by the TypeScript
client (whose single catch covers every fetch rejection) and by the
standalone Ruby client (for every pair of transport failures, the single
retry included); the lib/alttext_api.rb revision classifies only its
rescued classes (`ECONNREFUSED`, open/read timeout, `SocketError`) that
way — a transport exception outside that list (e.g. a connection reset)
propagates unclassified there. -/
theorem c5_connection_error_classification :
    (∀ m : String, (connectionError m).status = 0 ∧
      (connectionError m).errorCode = some (.str "connection_error")) ∧
    (∀ o : AttemptOutcome, isTransportFailure o = true →
      tsRequest o =
        { result := .error (connectionError (exnMessage o)), attempts := 1,
          reconnected := false }) ∧
    (∀ f g : AttemptOutcome, isTransportFailure f = true → isTransportFailure g = true →
      ∃ e, (rubyRequest f g).result = .error e ∧ e.status = 0 ∧
        e.error_code = some (.str "connection_error")) ∧
    (∀ f : AttemptOutcome, libRescued f = true →
      ∃ e, rubyLibRequest f = .apiError e ∧ e.status = 0 ∧
        e.error_code = some (.str "connection_error")) := by
  refine ⟨fun m => ⟨rfl, rfl⟩, ?_, ?_, ?_⟩
  · intro o h
    cases o
    case response => simp [isTransportFailure, isHttpResponse] at h
    all_goals rfl
  · intro f g hf hg
    cases f
    case response => simp [isTransportFailure, isHttpResponse] at hf
    case econnrefused => exact ⟨_, rfl, rfl, rfl⟩
    case openTimeout => exact ⟨_, rfl, rfl, rfl⟩
    case readTimeout => exact ⟨_, rfl, rfl, rfl⟩
    case writeTimeout => exact ⟨_, rfl, rfl, rfl⟩
    case socketError => exact ⟨_, rfl, rfl, rfl⟩
    case epipe =>
      cases g
      case response => simp [isTransportFailure, isHttpResponse] at hg
      all_goals exact ⟨_, rfl, rfl, rfl⟩
    case ioError =>
      cases g
      case response => simp [isTransportFailure, isHttpResponse] at hg
      all_goals exact ⟨_, rfl, rfl, rfl⟩
    case econnreset =>
      cases g
      case response => simp [isTransportFailure, isHttpResponse] at hg
      all_goals exact ⟨_, rfl, rfl, rfl⟩
  · intro f h
    cases f
    case econnrefused => exact ⟨_, rfl, rfl, rfl⟩
    case openTimeout => exact ⟨_, rfl, rfl, rfl⟩
    case readTimeout => exact ⟨_, rfl, rfl, rfl⟩
    case socketError => exact ⟨_, rfl, rfl, rfl⟩
    all_goals simp [libRescued] at h

/-- Witness for C5 at concrete outcomes: a timeout in the TypeScript
client, a reset followed by a broken pipe in the retrying Ruby client,
and a DNS failure in the lib client. -/
theorem c5_witness :
    ((connectionError "x").status = 0 ∧
      (connectionError "x").errorCode = some (.str "connection_error")) ∧
    tsRequest .openTimeout =
      { result := .error (connectionError (exnMessage .openTimeout)), attempts := 1,
        reconnected := false } ∧
    (∃ e, (rubyRequest .econnreset .epipe).result = .error e ∧ e.status = 0 ∧
      e.error_code = some (.str "connection_error")) ∧
    (∃ e, rubyLibRequest .socketError = .apiError e ∧ e.status = 0 ∧
      e.error_code = some (.str "connection_error")) :=
  ⟨c5_connection_error_classification.1 "x",
   c5_connection_error_classification.2.1 .openTimeout rfl,
   c5_connection_error_classification.2.2.1 .econnreset .epipe rfl rfl,
   c5_connection_error_classification.2.2.2 .socketError rfl⟩

/-- Counterexample for C5 as stated: in lib/alttext_api.rb a connection
reset matches no rescue clause, so the call surfaces the raw
`Errno::ECONNRESET` exception instead of a status-0 `connection_error`
classified failure. -/
theorem c5_cex :
    rubyLibRequest AttemptOutcome.econnreset =
      LibRequestOutcome.uncaught "Errno::ECONNRESET" ∧
    rubyLibRequest AttemptOutcome.econnreset ≠
      LibRequestOutcome.apiError
        { status := 0, error_code := some (.str "connection_error"), errors := .obj [],
          raw_body := .obj [],
          message := connectionErrorMessage (exnMessage AttemptOutcome.econnreset) } :=
  ⟨rfl, fun h => LibRequestOutcome.noConfusion h⟩

/-- C1 (amended): the standalone Ruby client retries exactly once, on a
fresh connection, precisely for first-attempt failures of the
connection-closed class (`EPIPE`/`IOError`/`ECONNRESET`): a successful
second attempt is returned transparently, a second transport failure of
any class surfaces the `connection_error` classification, and no other
failure class (other transport exceptions, or HTTP error responses) is
ever retried. The TypeScript client performs no retry at all: every
request makes exactly one attempt there, and a first-attempt transport
failure — the broken-pipe class included — is immediately classified as a
connection error. -/
theorem c1_retry_once_on_connection_closed :
    (∀ (f : AttemptOutcome) (status : Nat) (body : Option Json)
        (headers : List (String × String)),
      isRetryable f = true → statusOk status = true →
      rubyRequest f (.response status body headers) =
        { result := .ok (body.getD (.obj []), headers), attempts := 2,
          reconnected := true }) ∧
    (∀ f g : AttemptOutcome, isRetryable f = true → isTransportFailure g = true →
      rubyRequest f g =
        { result := .error (rubyConnectionError g), attempts := 2, reconnected := true }) ∧
    (∀ f : AttemptOutcome, isTransportFailure f = true → isRetryable f = false →
      ∀ second, rubyRequest f second =
        { result := .error (rubyConnectionError f), attempts := 1, reconnected := false }) ∧
    (∀ (status : Nat) (body : Option Json) (headers : List (String × String))
        (second : AttemptOutcome),
      (rubyRequest (.response status body headers) second).attempts = 1) ∧
    (∀ o : AttemptOutcome, (tsRequest o).attempts = 1) := by
  refine ⟨?_, ?_, ?_, fun _ _ _ _ => rfl, ?_⟩
  · intro f status body headers hf hok
    cases f
    case epipe => simp [rubyRequest, isRetryable, rubyHandleResponse, hok]
    case ioError => simp [rubyRequest, isRetryable, rubyHandleResponse, hok]
    case econnreset => simp [rubyRequest, isRetryable, rubyHandleResponse, hok]
    all_goals simp [isRetryable] at hf
  · intro f g hf hg
    cases f
    case epipe =>
      cases g
      case response => simp [isTransportFailure, isHttpResponse] at hg
      all_goals rfl
    case ioError =>
      cases g
      case response => simp [isTransportFailure, isHttpResponse] at hg
      all_goals rfl
    case econnreset =>
      cases g
      case response => simp [isTransportFailure, isHttpResponse] at hg
      all_goals rfl
    all_goals simp [isRetryable] at hf
  · intro f hf hret second
    cases f
    case response => simp [isTransportFailure, isHttpResponse] at hf
    case econnrefused => rfl
    case openTimeout => rfl
    case readTimeout => rfl
    case writeTimeout => rfl
    case socketError => rfl
    all_goals simp [isRetryable] at hret
  · intro o
    cases o <;> rfl

/-- Witness for C1 at concrete outcomes: a broken pipe followed by a 200
response (retry transparency), a reset followed by a broken pipe
(connection error after the exhausted retry), and a connection refusal
(not retried). -/
theorem c1_witness :
    rubyRequest .epipe (.response 200 (some (.obj [("name", .str "Test")])) []) =
      { result := .ok (.obj [("name", .str "Test")], []), attempts := 2,
        reconnected := true } ∧
    rubyRequest .econnreset .epipe =
      { result := .error (rubyConnectionError .epipe), attempts := 2, reconnected := true } ∧
    rubyRequest .econnrefused .epipe =
      { result := .error (rubyConnectionError .econnrefused), attempts := 1,
        reconnected := false } :=
  ⟨c1_retry_once_on_connection_closed.1 .epipe 200 (some (.obj [("name", .str "Test")])) []
      rfl rfl,
   c1_retry_once_on_connection_closed.2.1 .econnreset .epipe rfl rfl,
   c1_retry_once_on_connection_closed.2.2.1 .econnrefused rfl rfl .epipe⟩

/-- Counterexample for C1 as stated: in the TypeScript client a
first-attempt broken-pipe failure is not retried — the request makes
exactly one attempt (not the claimed two) and surfaces the connection
error even though a second attempt was available. -/
theorem c1_cex :
    (tsRequest AttemptOutcome.epipe).attempts = 1 ∧
    (tsRequest AttemptOutcome.epipe).result = .error (connectionError "Broken pipe") ∧
    (1 : Nat) ≠ 2 :=
  ⟨rfl, rfl, by decide⟩

/-- C8 (amended): both scrape formatters append the
asynchronous-processing note to the line list exactly when
`total_processed` is positive, and every discovered-image line ends with
a bracketed status, following each language's truthiness test on
`skip_reason`: the TypeScript formatter renders `[queued]` when the
reason is absent or the empty string and `[skipped: <reason>]` for a
non-empty reason, while the Ruby formatter renders `[queued]` only when
the reason is absent (`nil`/`false`) and `[skipped: <reason>]` for any
present reason — an empty-string reason renders `[skipped: ]` there. The
optional `(WxH)` dimensions are rendered only by the TypeScript
formatter (when both `width` and `height` are present); the Ruby
formatter of lib/formatters.rb reads only `src` and `skip_reason` and
never renders dimensions. -/
theorem c8_scrape_note_and_lines :
    (∀ (result : ScrapeResult) (url : String),
      asyncNote ∈ formatScrapeResultLines result url ↔ 0 < result.total_processed) ∧
    (∀ (img : ScrapedImage) (w h : Int), img.width = some w → img.height = some h →
      (" (" ++ toString w ++ "x" ++ toString h ++ ")").data <:+: (scrapeImageLine img).data) ∧
    (∀ img : ScrapedImage, img.skip_reason = none →
      "[queued]".data <:+ (scrapeImageLine img).data) ∧
    (∀ img : ScrapedImage, img.skip_reason = some "" →
      "[queued]".data <:+ (scrapeImageLine img).data) ∧
    (∀ (img : ScrapedImage) (r : String), img.skip_reason = some r → r ≠ "" →
      ("[skipped: " ++ r ++ "]").data <:+ (scrapeImageLine img).data) ∧
    (∀ (result : Json) (url : String),
      asyncNote ∈ rubyFormatScrapeResultLines result url ↔
        0 < rubyTotalProcessed result) ∧
    (∀ img : Json, img.getTruthy "skip_reason" = none →
      "[queued]".data <:+ (rubyScrapeImageLine img).data) ∧
    (∀ (img : Json) (v : Json), img.getTruthy "skip_reason" = some v →
      ("[skipped: " ++ rubyToS v ++ "]").data <:+ (rubyScrapeImageLine img).data) := by
  refine ⟨?_, ?_, ?_, ?_, ?_, ?_, ?_, ?_⟩
  · intro result url
    refine asyncNote_mem_scrape_shape _ _ _ _ _ _ ?_ ?_
    · intro l hl
      by_cases he : result.scraped_images.isEmpty
      · rw [if_pos he] at hl
        exact absurd hl (List.not_mem_nil _)
      · rw [if_neg he] at hl
        rcases List.mem_cons.mp hl with h | h
        · exact Or.inl h
        · obtain ⟨img, _, rfl⟩ := List.mem_map.mp h
          exact Or.inr ⟨_, rfl⟩
    · intro l hl
      by_cases he : (result.errors.getD []).isEmpty
      · rw [if_pos he] at hl
        exact absurd hl (List.not_mem_nil _)
      · rw [if_neg he] at hl
        rcases List.mem_cons.mp hl with h | h
        · exact ⟨_, h⟩
        · exact absurd h (List.not_mem_nil _)
  · intro img w h hw hh
    refine ⟨"  - ".data ++ (scrapeSrc img).data,
      (" " ++ ("[" ++ (scrapeStatus img ++ "]"))).data, ?_⟩
    simp only [scrapeImageLine, scrapeDims, hw, hh, String.data_append, List.append_assoc]
  · intro img hsr
    refine ⟨("  - " ++ (scrapeSrc img ++ (scrapeDims img ++ " "))).data, ?_⟩
    rw [show ("[queued]" : String) = "[" ++ ("queued" ++ "]") from rfl]
    simp only [scrapeImageLine, scrapeStatus, hsr, String.data_append, List.append_assoc]
  · intro img hsr
    have hst : scrapeStatus img = "queued" := by
      simp only [scrapeStatus, hsr]
      rw [if_pos (by decide)]
    refine ⟨("  - " ++ (scrapeSrc img ++ (scrapeDims img ++ " "))).data, ?_⟩
    rw [show ("[queued]" : String) = "[" ++ ("queued" ++ "]") from rfl]
    simp only [scrapeImageLine, hst, String.data_append, List.append_assoc]
  · intro img r hsr hne
    have hre : r.isEmpty = false := by
      rw [← Bool.not_eq_true]
      intro hr
      exact hne ((String.isEmpty_iff r).mp hr)
    refine ⟨("  - " ++ (scrapeSrc img ++ (scrapeDims img ++ " "))).data, ?_⟩
    rw [show ("[skipped: " ++ r ++ "]" : String) = "[" ++ (("skipped: " ++ r) ++ "]") from rfl]
    simp only [scrapeImageLine, scrapeStatus, hsr, hre, String.data_append, List.append_assoc,
      Bool.false_eq_true, if_false]
  · intro result url
    refine asyncNote_mem_scrape_shape _ _ _ _ _ _ ?_ ?_
    · intro l hl
      by_cases he : (rubyScrapedList result).isEmpty
      · rw [if_pos he] at hl
        exact absurd hl (List.not_mem_nil _)
      · rw [if_neg he] at hl
        rcases List.mem_cons.mp hl with h | h
        · exact Or.inl h
        · obtain ⟨img, _, rfl⟩ := List.mem_map.mp h
          exact Or.inr ⟨_, rfl⟩
    · intro l hl
      by_cases he : (rubyErrorsObj result).isEmpty
      · rw [if_pos he] at hl
        exact absurd hl (List.not_mem_nil _)
      · rw [if_neg he] at hl
        rcases List.mem_cons.mp hl with h | h
        · exact ⟨_, h⟩
        · exact absurd h (List.not_mem_nil _)
  · intro img hsr
    refine ⟨("  - " ++ (rubyScrapeSrc img ++ " ")).data, ?_⟩
    rw [show ("[queued]" : String) = "[" ++ ("queued" ++ "]") from rfl]
    simp only [rubyScrapeImageLine, rubyScrapeStatus, hsr, String.data_append,
      List.append_assoc]
  · intro img v hsr
    refine ⟨("  - " ++ (rubyScrapeSrc img ++ " ")).data, ?_⟩
    rw [show ("[skipped: " ++ rubyToS v ++ "]" : String) =
      "[" ++ (("skipped: " ++ rubyToS v) ++ "]") from rfl]
    simp only [rubyScrapeImageLine, rubyScrapeStatus, hsr, String.data_append,
      List.append_assoc]

/-- Witness for C8 at concrete records: dimensions shown when both are
present; `[queued]` in the TypeScript formatter for an absent and for an
empty-string skip reason; `[skipped: <reason>]` for a non-empty one; and
in the Ruby formatter `[queued]` for an absent reason but
`[skipped: ]` for the (truthy) empty-string reason. -/
theorem c8_witness :
    (" (" ++ toString (10 : Int) ++ "x" ++ toString (20 : Int) ++ ")").data <:+:
      (scrapeImageLine { src := some "i.jpg", width := some 10, height := some 20 }).data ∧
    "[queued]".data <:+ (scrapeImageLine { src := some "i.jpg" }).data ∧
    "[queued]".data <:+ (scrapeImageLine { src := some "i.jpg", skip_reason := some "" }).data ∧
    ("[skipped: " ++ "no alt needed" ++ "]").data <:+
      (scrapeImageLine { src := some "i.jpg", skip_reason := some "no alt needed" }).data ∧
    "[queued]".data <:+ (rubyScrapeImageLine (.obj [("src", .str "a.jpg")])).data ∧
    ("[skipped: " ++ rubyToS (Json.str "") ++ "]").data <:+
      (rubyScrapeImageLine (.obj [("skip_reason", .str "")])).data :=
  ⟨c8_scrape_note_and_lines.2.1 _ 10 20 rfl rfl,
   c8_scrape_note_and_lines.2.2.1 _ rfl,
   c8_scrape_note_and_lines.2.2.2.1 _ rfl,
   c8_scrape_note_and_lines.2.2.2.2.1 _ "no alt needed" rfl (by decide),
   c8_scrape_note_and_lines.2.2.2.2.2.2.1 _ rfl,
   c8_scrape_note_and_lines.2.2.2.2.2.2.2 _ (Json.str "") rfl⟩

/-- Counterexample for C8 as stated: the Ruby formatter's discovered-image
line for an image carrying both dimensions contains no `(10x20)` — unlike
the TypeScript formatter's line for the same data — and the two
formatters also disagree on an empty-string skip reason (falsy in
JavaScript, truthy in Ruby): the TypeScript status is `queued` while the
Ruby status is `skipped: `. -/
theorem c8_cex :
    rubyScrapeImageLine (.obj [("src", .str "i.jpg"), ("width", .num 10), ("height", .num 20)]) =
      "  - i.jpg [queued]" ∧
    hasSub "(10x20)".data "  - i.jpg [queued]".data = false ∧
    scrapeImageLine { src := some "i.jpg", width := some 10, height := some 20 } =
      "  - i.jpg (10x20) [queued]" ∧
    scrapeStatus { skip_reason := some "" } = "queued" ∧
    rubyScrapeStatus (.obj [("skip_reason", .str "")]) = "skipped: " :=
  ⟨rfl, rfl, rfl, rfl, rfl⟩

/-- C10 (amended): in the TypeScript client the raised error's field map
contains exactly those entries of the body's `errors` object whose value
is an array of strings (an absent or non-object `errors` field and every
malformed entry are excluded), and the joined-message fallback is computed
only from the retained entries. The standalone Ruby client, however, only
replaces a non-hash `errors` value by an empty hash: hash entries with
malformed values are handed to the error constructor unfiltered. -/
theorem c10_error_map_string_lists :
    (∀ (status : Nat) (rawBody : Option Json), statusOk status = false →
      ∀ (k : String) (vs : List String),
        ((k, vs) ∈ errorsOf (handleResponse status rawBody) ↔
          (k, Json.arr (vs.map Json.str)) ∈ rawErrorFields (rawBody.getD (.obj [])))) ∧
    (∀ (status : Nat) (body : Json), statusOk status = false →
      body.getNonNull "error" = none →
      ∃ e, handleResponse status (some body) = .error e ∧
        (e.message = httpFallback status ∨
          e.message = String.intercalate ", " (e.errors.map Prod.snd).flatten)) ∧
    (∀ (status : Nat) (body : Json) (fs : List (String × Json)), statusOk status = false →
      body.get "errors" = some (.obj fs) →
      ∃ e, rubyHandleResponse status (some body) [] = .error e ∧ e.errors = fs) := by
  refine ⟨?_, ?_, ?_⟩
  · intro status rawBody h k vs
    rw [handleResponse_error _ _ h]
    show (k, vs) ∈ filterErrors ((rawBody.getD (.obj [])).get "errors") ↔ _
    rcases hob : (rawBody.getD (.obj [])).get "errors" with _ | v
    · simp [filterErrors, rawErrorFields, hob]
    · cases v
      case obj fs =>
        rw [show rawErrorFields (rawBody.getD (.obj [])) = fs by simp [rawErrorFields, hob]]
        exact mem_filterErrors_obj fs k vs
      all_goals simp [filterErrors, rawErrorFields, hob]
  · intro status body h herr
    refine ⟨_, handleResponse_error _ _ h, ?_⟩
    simp only [Option.getD_some, herr]
    split
    · exact Or.inl rfl
    · exact Or.inr rfl
  · intro status body fs h hobj
    rw [rubyHandleResponse_error _ _ _ h]
    exact ⟨_, rfl, by simp [hobj]⟩

/-- Witness for C10 at concrete inputs: the 422 validation body retains
its well-formed entry in the TypeScript client, a malformed entry is
absent there, the no-`error`-key body gets its message from the retained
entries, and the standalone Ruby client hands the malformed entry
through. -/
theorem c10_witness :
    (("url", ["is invalid"]) ∈
        errorsOf (handleResponse 422 (some (.obj [("errors", .obj [("url", .arr [.str "is invalid"])])]))) ↔
      ("url", Json.arr (["is invalid"].map Json.str)) ∈
        rawErrorFields (.obj [("errors", .obj [("url", .arr [.str "is invalid"])])])) ∧
    ((("f", []) : String × List String) ∈
        errorsOf (handleResponse 422 (some (.obj [("errors", .obj [("f", .num 42)])]))) ↔
      ("f", Json.arr (([] : List String).map Json.str)) ∈
        rawErrorFields (.obj [("errors", .obj [("f", .num 42)])])) ∧
    (∃ e, handleResponse 422 (some (.obj [("errors", .obj [("f", .num 42)])])) = .error e ∧
      (e.message = httpFallback 422 ∨
        e.message = String.intercalate ", " (e.errors.map Prod.snd).flatten)) ∧
    (∃ e, rubyHandleResponse 422 (some (.obj [("errors", .obj [("f", .num 42)])])) [] =
        .error e ∧ e.errors = [("f", .num 42)]) :=
  ⟨c10_error_map_string_lists.1 422 _ rfl "url" ["is invalid"],
   c10_error_map_string_lists.1 422 _ rfl "f" [],
   c10_error_map_string_lists.2.1 422 _ rfl rfl,
   c10_error_map_string_lists.2.2 422 _ [("f", .num 42)] rfl rfl⟩

/-- Counterexample for C10 as stated: on the body
`{"errors": {"f": 42}}` the standalone Ruby client raises an error whose
map retains the entry `("f", 42)` — a value that is not a list of strings
— and whose message is computed from it, while the TypeScript filter
would have excluded it. -/
theorem c10_cex :
    rubyHandleResponse 422 (some (.obj [("errors", .obj [("f", .num 42)])])) [] =
      .error { status := 422, error_code := none, errors := [("f", .num 42)],
               message := "42" } ∧
    [("f", Json.num 42)] ≠ ([] : List (String × Json)) ∧
    filterErrors (some (.obj [("f", .num 42)])) = [] :=
  ⟨rfl, by simp, rfl⟩

end AltText
